import Mathlib

/-! Verification of the file-pairing and sample-metadata-extraction core of the
`dx_command_generator` repository against its specification.

Strings are modelled as Lean `String` values (wrapped lists of unicode code
points), matching CPython `str`; every character-level operation used by the
program (`endswith`, slicing, `replace`, regex searches, `splitlines`,
`strip`, `split`) is implemented directly on `List Char`, so that every
definition evaluates by kernel reduction. -/

namespace DxGen

/-- Python `str` strict comparison: lexicographic order on code points. -/
def lexLt : List Char → List Char → Bool
  | [], [] => false
  | [], _ :: _ => true
  | _ :: _, [] => false
  | a :: as, b :: bs =>
    if a.toNat < b.toNat then true
    else if b.toNat < a.toNat then false
    else lexLt as bs

/-- Python `str` non-strict comparison (total order: `a <= b` iff `not (b < a)`). -/
def lexLe (a b : List Char) : Bool := !(lexLt b a)

/-- Python `str.endswith`: `suffix` is a suffix of `l`. -/
def pyEndsWith (l suffix : List Char) : Bool := List.isPrefixOf suffix.reverse l.reverse

/-- Python slice `s[:-k]`: drops the last `k` characters, but yields `""` when
`k = 0` (because `s[:-0]` is `s[:0]`), exactly as CPython evaluates it. -/
def pySliceDropRight (l : List Char) (k : Nat) : List Char :=
  if k = 0 then [] else l.take (l.length - k)

/-- Helper for `pyReplace`, structurally recursive on a fuel argument that
starts at the length of the scanned list (each step consumes at least one
character when the pattern is nonempty). -/
def replaceAux (pat rep : List Char) : Nat → List Char → List Char
  | 0, l => l
  | _ + 1, [] => []
  | fuel + 1, c :: rest =>
    if List.isPrefixOf pat (c :: rest) then
      rep ++ replaceAux pat rep fuel ((c :: rest).drop pat.length)
    else
      c :: replaceAux pat rep fuel rest

/-- Python `str.replace` (all non-overlapping occurrences, scanning left to
right). The program only ever calls it with nonempty patterns; for an empty
pattern we return the input unchanged. -/
def pyReplace (l pat rep : List Char) : List Char :=
  if pat.isEmpty then l else replaceAux pat rep l.length l

/-- One remote file entry as consumed by the pairer: `item['id']` and
`item['describe']['name']`. The platform gateway contract guarantees both
fields are present on well-formed records (records missing a key are skipped
by the source's `except KeyError` branch and never reach the file sets). -/
structure FileRecord where
  id : String
  display_name : String

/-- Python `dict` assignment `m[k] = v`: updates the value in place when the
key is present (insertion order preserved, CPython 3.7+), appends otherwise.
Note the value for an existing key is overwritten — last write wins. -/
def dictInsert (m : List (String × String)) (k v : String) : List (String × String) :=
  if m.any (fun p => p.1 == k) then
    m.map (fun p => if p.1 = k then (k, v) else p)
  else m ++ [(k, v)]

/-- Python `m[k]` / `k in m` on the association-list model of a dict. -/
def dictLookup (m : List (String × String)) (k : String) : Option String :=
  match m with
  | [] => none
  | (k', v) :: rest => if k' = k then some v else dictLookup rest k

/-- Applies the optional `base_name_transform` (`if base_name_transform:` in
the source; the argument is a function, so non-`None` means truthy). -/
def applyTransform (t : Option (String → String)) (s : String) : String :=
  match t with
  | some f => f s
  | none => s

/-- One iteration of the file-set loops in `_pair_dx_files`: transform the
display name, require it to end with the suffix (otherwise the record is
skipped with a warning), and strip the suffix to obtain the base name. -/
def baseNameOf (t : Option (String → String)) (suffix : String) (r : FileRecord) :
    Option (String × String) :=
  let file_name := applyTransform t r.display_name
  if pyEndsWith file_name.data suffix.data then
    some (⟨pySliceDropRight file_name.data suffix.data.length⟩, r.id)
  else none

/-- One loop iteration of the FileSet construction: skip non-qualifying
records, otherwise assign `base_name → id` into the dict. -/
def fileSetStep (t : Option (String → String)) (suffix : String)
    (m : List (String × String)) (r : FileRecord) : List (String × String) :=
  match baseNameOf t suffix r with
  | some (b, i) => dictInsert m b i
  | none => m

/-- The FileSet built by `_pair_dx_files` for one side: a dict from base name
to file id, filled by iterating the records in order. -/
def build_file_set (t : Option (String → String)) (suffix : String)
    (rs : List FileRecord) : List (String × String) :=
  rs.foldl (fileSetStep t suffix) []

/-- Comparison used by `sorted(primary_files.items())`: Python compares the
`(key, value)` tuples lexicographically, but dict keys are unique, so the
comparison never reaches the value component; ordering by key alone is
equivalent. -/
def keyLe (a b : String × String) : Prop := lexLe a.1.data b.1.data = true

instance : DecidableRel keyLe := fun a b =>
  inferInstanceAs (Decidable (lexLe a.1.data b.1.data = true))

/-- Python `sorted` (a stable ascending sort; any stable sort computes the
same list, here insertion sort). -/
def sortedItems (m : List (String × String)) : List (String × String) :=
  List.insertionSort keyLe m

/-- The return value of `_pair_dx_files` (modules/dx_command_generator.py):
iterate the primary file set in ascending base-name order and emit
`(primary_id, secondary_id)` for every base name also present in the
secondary set. This is the complete return value of the Python function. -/
def pair_dx_files (primary_files_data : List FileRecord) (primary_suffix : String)
    (secondary_files_data : List FileRecord) (secondary_suffix : String)
    (base_name_transform : Option (String → String)) : List (String × String) :=
  let primary_files := build_file_set base_name_transform primary_suffix primary_files_data
  let secondary_files := build_file_set base_name_transform secondary_suffix secondary_files_data
  (sortedItems primary_files).filterMap
    (fun p => (dictLookup secondary_files p.1).map (fun sid => (p.2, sid)))

/-- The `unpaired_primary_count` local variable of `_pair_dx_files`: primary
base names (iterated in sorted order) with no secondary partner. Logged via a
warning; not part of the function's return value. -/
def unpaired_primary_count (primary_files_data : List FileRecord) (primary_suffix : String)
    (secondary_files_data : List FileRecord) (secondary_suffix : String)
    (base_name_transform : Option (String → String)) : Nat :=
  let primary_files := build_file_set base_name_transform primary_suffix primary_files_data
  let secondary_files := build_file_set base_name_transform secondary_suffix secondary_files_data
  (sortedItems primary_files).countP (fun p => (dictLookup secondary_files p.1).isNone)

/-- The `orphaned_secondary_count` local variable of `_pair_dx_files`:
secondary base names absent from the primary set. Logged via a warning; not
part of the function's return value. -/
def orphaned_secondary_count (primary_files_data : List FileRecord) (primary_suffix : String)
    (secondary_files_data : List FileRecord) (secondary_suffix : String)
    (base_name_transform : Option (String → String)) : Nat :=
  let primary_files := build_file_set base_name_transform primary_suffix primary_files_data
  let secondary_files := build_file_set base_name_transform secondary_suffix secondary_files_data
  secondary_files.countP (fun p => (dictLookup primary_files p.1).isNone)

/-- The PairResult record described by the specification's data model:
ordered matched pairs plus both counts. All three components are computed by
the body of `_pair_dx_files`, but only `matched` is returned. -/
structure PairResult where
  matched : List (String × String)
  unpairedPrimaryCount : Nat
  orphanedSecondaryCount : Nat

/-- The three pieces of accounting computed inside `_pair_dx_files`, gathered
into the specification's PairResult shape. -/
def mk_pair_result (primary_files_data : List FileRecord) (primary_suffix : String)
    (secondary_files_data : List FileRecord) (secondary_suffix : String)
    (base_name_transform : Option (String → String)) : PairResult :=
  { matched := pair_dx_files primary_files_data primary_suffix
      secondary_files_data secondary_suffix base_name_transform
    unpairedPrimaryCount := unpaired_primary_count primary_files_data primary_suffix
      secondary_files_data secondary_suffix base_name_transform
    orphanedSecondaryCount := orphaned_secondary_count primary_files_data primary_suffix
      secondary_files_data secondary_suffix base_name_transform }

/-- Base-name computation of the standalone fastq pairing script
(`fastqmatchpair.py`): replace the read tag (`"_R1."` or `"_R2."`) with
`"_R#."`, then strip a trailing `".fastq.gz"` if present (`base_name[:-9]`).
No suffix requirement is applied — every record enters the file set. -/
def fastqBase (tag : String) (file_name : String) : String :=
  let b := pyReplace file_name.data tag.data "_R#.".data
  ⟨if pyEndsWith b ".fastq.gz".data then pySliceDropRight b 9 else b⟩

/-- The pairing core of `find_and_pair_fastq_files` (fastqmatchpair.py):
returns the `(r1_id, r2_id)` pairs written to the output file (iterating R1
base names in sorted order), the `unpaired_r1_count`, and the
`orphaned_r2_count`. The source iterates `sorted(r1_files.keys())` and looks
each key up in `r1_files`; on a dict this visits exactly the sorted items. -/
def find_and_pair_fastq_files (r1_files_data r2_files_data : List FileRecord) :
    List (String × String) × Nat × Nat :=
  let r1_files := r1_files_data.foldl
    (fun m r => dictInsert m (fastqBase "_R1." r.display_name) r.id) []
  let r2_files := r2_files_data.foldl
    (fun m r => dictInsert m (fastqBase "_R2." r.display_name) r.id) []
  let sorted_r1 := sortedItems r1_files
  let pairs := sorted_r1.filterMap
    (fun p => (dictLookup r2_files p.1).map (fun r2id => (p.2, r2id)))
  let unpaired_r1 := sorted_r1.countP (fun p => (dictLookup r2_files p.1).isNone)
  let orphaned_r2 := r2_files.countP (fun p => (dictLookup r1_files p.1).isNone)
  (pairs, unpaired_r1, orphaned_r2)

/-- The name transform of the specification's Scenario B: map occurrences of
`"_R1."` and `"_R2."` to the common placeholder `"_R#."`. -/
def fastqTransform (s : String) : String :=
  ⟨pyReplace (pyReplace s.data "_R1.".data "_R#.".data) "_R2.".data "_R#.".data⟩

/-- The value the last qualifying record with base name `b` assigned, if any:
the specification value of a last-write-wins dict fill. -/
def lastWins (entries : List (String × String)) (b : String) : Option String :=
  (entries.reverse.find? (fun p => p.1 == b)).map (fun p => p.2)

/-- The matched pairs of `_pair_dx_files` together with the base name each
pair was matched on (the base name is the loop variable of the emitting
loop; it is not part of the function's return value). -/
def matched_with_bases (primary_files_data : List FileRecord) (primary_suffix : String)
    (secondary_files_data : List FileRecord) (secondary_suffix : String)
    (base_name_transform : Option (String → String)) :
    List (String × String × String) :=
  let primary_files := build_file_set base_name_transform primary_suffix primary_files_data
  let secondary_files := build_file_set base_name_transform secondary_suffix secondary_files_data
  (sortedItems primary_files).filterMap
    (fun p => (dictLookup secondary_files p.1).map (fun sid => (p.1, p.2, sid)))

/-- Shape of a `Pan\d+` match under `re.IGNORECASE`: three characters that
case-fold to `p`, `a`, `n`, followed by a nonempty run of digits. -/
def panShape (m : List Char) : Bool :=
  match m with
  | p :: a :: n :: ds =>
    p.toLower == 'p' && a.toLower == 'a' && n.toLower == 'n' && !ds.isEmpty &&
      ds.all Char.isDigit
  | _ => false

/-- Leftmost-match search: try the anchored matcher at every start position
from left to right and return the first hit — the semantics of `re.search`.
None of the modelled patterns can match the empty string, so the position at
the very end of the input need not be tried. -/
def searchFirst {α : Type} (matchAt : List Char → Option α) : List Char → Option α
  | [] => none
  | c :: rest =>
    match matchAt (c :: rest) with
    | some r => some r
    | none => searchFirst matchAt rest

/-- Match of `R\d+(?:\.\d+)?` anchored at the start: literal `R`, a maximal
nonempty digit run, then (greedily) an optional `.` followed by a further
nonempty digit run. Backtracking `\d+` can never enable the optional group
(a digit is not `.`), so the maximal-munch reading is exact. -/
def rMatchAt : List Char → Option (List Char)
  | 'R' :: rest =>
    let ds := rest.takeWhile Char.isDigit
    if ds.isEmpty then none
    else
      match rest.drop ds.length with
      | '.' :: r2 =>
        let ds2 := r2.takeWhile Char.isDigit
        if ds2.isEmpty then some ('R' :: ds) else some ('R' :: ds ++ '.' :: ds2)
      | _ => some ('R' :: ds)
  | _ => none

/-- `re.search(r'R\d+(?:\.\d+)?', s)`, returning `group(0)`. -/
def searchRNumber (s : String) : Option String :=
  (searchFirst rMatchAt s.data).map (fun l => ⟨l⟩)

/-- Match of `Pan\d+` with `re.IGNORECASE` anchored at the start. The matched
text is taken from the input, so the original casing is preserved; the
program only feeds it ASCII text, for which `IGNORECASE` is plain
ASCII case folding. -/
def panMatchAt : List Char → Option (List Char)
  | p :: a :: n :: rest =>
    if p.toLower == 'p' && a.toLower == 'a' && n.toLower == 'n' then
      let ds := rest.takeWhile Char.isDigit
      if ds.isEmpty then none else some (p :: a :: n :: ds)
    else none
  | _ => none

/-- `re.search(r'Pan\d+', s, re.IGNORECASE)`, returning `group(0)` (original
casing). -/
def searchPanCode (s : String) : Option String :=
  (searchFirst panMatchAt s.data).map (fun l => ⟨l⟩)

/-- Case-insensitive prefix test against an already-lowercased pattern. -/
def ciIsPrefixOf (pat l : List Char) : Bool :=
  match pat, l with
  | [], _ => true
  | _ :: _, [] => false
  | p :: ps, c :: cs => p == c.toLower && ciIsPrefixOf ps cs

/-- One alternation step of `SingletonWES|WES` with `re.IGNORECASE`. -/
def wesMatchAt (l : List Char) : Option Unit :=
  if ciIsPrefixOf "singletonwes".data l then some ()
  else if ciIsPrefixOf "wes".data l then some ()
  else none

/-- Truthiness of `re.search(r'SingletonWES|WES', s, re.IGNORECASE)`. -/
def hasWes (s : String) : Bool := (searchFirst wesMatchAt s.data).isSome

/-- The `[A-Za-z0-9]*?(?:_|$)` tail of the batch pattern: at each position the
lazy quantifier first tries `(?:_|$)` (an underscore or the end of the
input), and otherwise consumes one ASCII alphanumeric; any other character
makes the whole attempt fail. Sample names are single lines (they come from
`splitlines`), so `$` is the end of the string. -/
def lazyScan : List Char → Option (List Char)
  | [] => some []
  | c :: rest =>
    if c == '_' then some []
    else if c.isAlphanum then (lazyScan rest).map (fun t => c :: t)
    else none

/-- Match of `(NGS\d+[A-Za-z0-9]*?)(?:_|$)` anchored at the start, returning
`group(1)`. Giving `\d+` fewer than its maximal digits cannot create a match
the maximal reading misses: the freed digits are alphanumeric and not `_`,
so the lazy scan fails at exactly the same character. -/
def batchMatchAt : List Char → Option (List Char)
  | 'N' :: 'G' :: 'S' :: rest =>
    let ds := rest.takeWhile Char.isDigit
    if ds.isEmpty then none
    else
      match lazyScan (rest.drop ds.length) with
      | some tail => some ('N' :: 'G' :: 'S' :: ds ++ tail)
      | none => none
  | _ => none

/-- `re.search(r'(NGS\d+[A-Za-z0-9]*?)(?:_|$)', s)`, returning `group(1)`. -/
def searchBatch (s : String) : Option String :=
  (searchFirst batchMatchAt s.data).map (fun l => ⟨l⟩)

/-- Python `pat in s` substring containment (case-sensitive). -/
def containsSub (s pat : String) : Bool :=
  (searchFirst (fun l => if List.isPrefixOf pat.data l then some () else none) s.data).isSome

/-- Python `str.strip()` whitespace (the ASCII cases). -/
def pyIsSpace (c : Char) : Bool :=
  c == ' ' || c == '\t' || c == '\n' || c == '\r' || c == '\x0b' || c == '\x0c'

/-- Python `str.strip()`. -/
def pyStrip (s : String) : String :=
  ⟨((s.data.dropWhile pyIsSpace).reverse.dropWhile pyIsSpace).reverse⟩

/-- Python `s.split(',')[0]`. -/
def firstCommaField (s : String) : String := ⟨s.data.takeWhile (fun c => c != ',')⟩

/-- Helper for `pySplitLines`: accumulates the current line (reversed). -/
def splitLinesAux : List Char → List Char → List (List Char)
  | [], acc => if acc.isEmpty then [] else [acc.reverse]
  | '\r' :: '\n' :: rest, acc => acc.reverse :: splitLinesAux rest []
  | '\r' :: rest, acc => acc.reverse :: splitLinesAux rest []
  | '\n' :: rest, acc => acc.reverse :: splitLinesAux rest []
  | c :: rest, acc => splitLinesAux rest (c :: acc)

/-- Python `str.splitlines()` (for the newline conventions `\n`, `\r`,
`\r\n`; a trailing line terminator does not produce an extra empty line). -/
def pySplitLines (s : String) : List String := (splitLinesAux s.data []).map (fun l => ⟨l⟩)

/-- The fixed PolyEdge parameter bundle emitted for R210/R211 samples. -/
def polyedgeParamString : String :=
  "-istage-GK8G6kj03JGyVGvk2Q44KQG1.gene=MSH2 -istage-GK8G6kj03JGyVGvk2Q44KQG1.chrom=2 -istage-GK8G6kj03JGyVGvk2Q44KQG1.poly_start=47641559 -istage-GK8G6kj03JGyVGvk2Q44KQG1.poly_end=47641586 -istage-GK8G6kj03JGyVGvk2Q44KQG1.skip=false"

/-- The per-sample data `_process_sample` (modules/workflow.py) derives and
substitutes into its fixed `dx run` command template. The emitted shell line
is a pure function of exactly these fields. -/
structure SampleParams where
  sample_name : String
  r_number : String
  pan_code : String
  batch : String
  variant_bed : String
  coverage_bed : String
  prs_skip : String
  polyedge_params : String
  cnv_stage_skip : String

/-- The decision logic of `_process_sample`: the three ordered extraction
checks (R number with WES fallback, Pan code, batch), each failure writing
one `(sample_name, reason)` row to the failures CSV and returning `False`
without evaluating the remaining checks; on success, the resolved command
parameters. -/
def process_sample (common_data_project : String) (sample_name : String) :
    Except (String × String) SampleParams :=
  let r_number1 : Option String :=
    match searchRNumber sample_name with
    | some r => some r
    | none => if hasWes sample_name then some "WES" else none
  match r_number1 with
  | none => Except.error (sample_name,
      "Could not extract R number from sample name: " ++ sample_name ++
      ". Expected format: *R[number]* or *SingletonWES* or *WES*.")
  | some r_number =>
    match searchPanCode sample_name with
    | none => Except.error (sample_name,
        "Could not extract Pan code from sample name: " ++ sample_name ++
        ". Expected format: *Pan[number]*.")
    | some pan_code =>
      match searchBatch sample_name with
      | none => Except.error (sample_name,
          "Could not detect batch information (starting with NGS) from sample name '" ++
          sample_name ++ "'.")
      | some batch =>
        Except.ok
          { sample_name := sample_name
            r_number := r_number
            pan_code := pan_code
            batch := batch
            variant_bed := common_data_project ++ ":/Data/BED/Pan5272_data.bed"
            coverage_bed := common_data_project ++ ":/Data/BED/Pan5272_sambamba.bed"
            prs_skip := if r_number == "R134" then "false" else "true"
            polyedge_params :=
              if r_number == "R210" || r_number == "R211" then polyedgeParamString else ""
            cnv_stage_skip := if containsSub sample_name "NA12878" then "false" else "true" }

/-- The run number a sample resolves to, when extraction succeeds. -/
def rNumberOf (e : Except (String × String) SampleParams) : Option String :=
  match e with
  | Except.ok p => some p.r_number
  | Except.error _ => none

/-- The PRS skip flag a sample resolves to, when extraction succeeds
(`"false"` means PRS analysis is enabled). -/
def prsSkipOf (e : Except (String × String) SampleParams) : Option String :=
  match e with
  | Except.ok p => some p.prs_skip
  | Except.error _ => none

/-- Accumulated outcome of `_process_workflow`'s sample loop: the success and
failure counters, the rows appended to the failures CSV, and the command
parameter records appended to the output script, all in batch order. -/
structure WorkflowResult where
  processed_count : Nat
  failed_count : Nat
  failure_rows : List (String × String)
  commands : List SampleParams

/-- One iteration of the loop in `_process_workflow`: take the first
comma-separated field of the stripped raw line as the sample name, process
it, and update the counters and sinks. -/
def workflowStep (common_data_project : String) (acc : WorkflowResult) (raw : String) :
    WorkflowResult :=
  match process_sample common_data_project (firstCommaField (pyStrip raw)) with
  | Except.ok params =>
    { acc with
      processed_count := acc.processed_count + 1
      commands := acc.commands ++ [params] }
  | Except.error row =>
    { acc with
      failed_count := acc.failed_count + 1
      failure_rows := acc.failure_rows ++ [row] }

/-- The sample loop of `_process_workflow` (modules/workflow.py): strictly
sequential, every sample processed regardless of earlier failures. -/
def process_workflow (common_data_project : String) (samples_to_process : List String) :
    WorkflowResult :=
  samples_to_process.foldl (workflowStep common_data_project) ⟨0, 0, [], []⟩

/-- Python `set.add` on an insertion-ordered list model of a set. -/
def setAdd (s : List String) (x : String) : List String := if x ∈ s then s else s ++ [x]

/-- The line loop of `DXUtils.extract_pan_numbers` (modules/dx_utils.py):
per line, strip it, skip it when empty, and otherwise add the first
(leftmost) case-insensitive `Pan\d+` match — with its original casing — to
the set. -/
def pansOfText (manifest_content : String) : List String :=
  (pySplitLines manifest_content).foldl (fun acc rawLine =>
    let line := pyStrip rawLine
    if line.data.isEmpty then acc
    else
      match searchPanCode line with
      | some m => setAdd acc m
      | none => acc) []

/-- `DXUtils.extract_pan_numbers` including its error handling: the manifest
read (`dx cat` via `subprocess.check_output`) either yields text or raises;
both `except` arms only print and fall through to `return pan_numbers`,
which is still the empty set, so the function always returns a set and a
failed read is indistinguishable from a manifest without Pan numbers. -/
def extract_pan_numbers (read_result : Except String String) : List String :=
  match read_result with
  | Except.error _ => []
  | Except.ok manifest_content => pansOfText manifest_content

/-- One panel entry of the panel configuration table: the value under the
`ed_cnvcalling_bedfile` key, when that key is present. -/
structure PanelInfo where
  ed_cnvcalling_bedfile : Option String
deriving DecidableEq

/-- Python `panel_config.get(pan_number)` on the association-list model. -/
def lookupPanel (panel_config : List (String × PanelInfo)) (pan_number : String) :
    Option PanelInfo :=
  (panel_config.find? (fun p => p.1 == pan_number)).map (fun p => p.2)

/-- `_get_cnv_bedfile` (modules/cnv.py). A pan number absent from the table
logs a warning and returns `None`; one present without a truthy
`ed_cnvcalling_bedfile` logs a note and returns `None`; otherwise the full
BED path is returned. Neither `None` case raises (`dict.get` cannot throw
here, so the `except` re-raise arm is unreachable). -/
def get_cnv_bedfile (common_data_project : String)
    (panel_config : List (String × PanelInfo)) (pan_number : String) : Option String :=
  match lookupPanel panel_config pan_number with
  | none => none
  | some panel_info =>
    match panel_info.ed_cnvcalling_bedfile with
    | some cnv_bedfile =>
      if cnv_bedfile.data.isEmpty then none
      else some (common_data_project ++ ":/Data/BED/" ++ cnv_bedfile ++ "_CNV.bed")
    | none => none

/-- The `dx run` line `_generate_cnv_commands` writes for one pan number. -/
def cnvCommand (cnv_applet_id reference_genome readcount_file project_id project_name
    pan_number cnv_bedfile : String) : String :=
  "dx run " ++ cnv_applet_id ++ " --priority high -y --name ED_CNVcalling-" ++ pan_number ++
  " -ireadcount_file=" ++ readcount_file ++ " -ibam_str=markdup -ireference_genome=" ++
  reference_genome ++ " -isamplename_str=_markdup.bam -isubpanel_bed=" ++ cnv_bedfile ++
  " -iproject_name=" ++ project_name ++ " -ibamfile_pannumbers=" ++ pan_number ++
  " --dest=" ++ project_id ++ " --brief -y\n"

/-- Ascending `sorted` on plain strings (`sorted(pan_numbers)`). -/
def strLe (a b : String) : Prop := lexLe a.data b.data = true

instance : DecidableRel strLe := fun a b =>
  inferInstanceAs (Decidable (lexLe a.data b.data = true))

/-- Python `sorted` over a collection of strings. -/
def sortedStrings (l : List String) : List String := List.insertionSort strLe l

/-- `_generate_cnv_commands` (modules/cnv.py): iterate the pan numbers in
sorted order, skip (`continue`) every pan number whose `_get_cnv_bedfile` is
`None`, and emit one command for each of the others. The loop has no failure
path for a skipped pan number. -/
def generate_cnv_commands (common_data_project : String)
    (panel_config : List (String × PanelInfo)) (cnv_applet_id reference_genome : String)
    (pan_numbers : List String) (readcount_file project_id project_name : String) :
    List String :=
  (sortedStrings pan_numbers).filterMap (fun pan_number =>
    (get_cnv_bedfile common_data_project panel_config pan_number).map
      (cnvCommand cnv_applet_id reference_genome readcount_file project_id project_name
        pan_number))

/-! Order properties of the Python string comparison. -/

theorem lexLe_total : ∀ (a b : List Char), lexLe a b = true ∨ lexLe b a = true := by
  intro a
  induction a with
  | nil =>
    intro b
    cases b <;> simp [lexLe, lexLt]
  | cons x xs ih =>
    intro b
    cases b with
    | nil => simp [lexLe, lexLt]
    | cons y ys =>
      by_cases h1 : x.toNat < y.toNat
      · left
        have h2 : ¬ y.toNat < x.toNat := by omega
        simp [lexLe, lexLt, h1, h2]
      · by_cases h2 : y.toNat < x.toNat
        · right
          simp [lexLe, lexLt, h1, h2]
        · rcases ih ys with h | h
          · left
            simpa [lexLe, lexLt, h1, h2] using h
          · right
            simpa [lexLe, lexLt, h1, h2] using h

theorem lexLe_trans :
    ∀ (a b c : List Char), lexLe a b = true → lexLe b c = true → lexLe a c = true := by
  intro a
  induction a with
  | nil =>
    intro b c _ _
    cases c <;> simp [lexLe, lexLt]
  | cons x xs ih =>
    intro b c hab hbc
    cases b with
    | nil => simp [lexLe, lexLt] at hab
    | cons y ys =>
      cases c with
      | nil => simp [lexLe, lexLt] at hbc
      | cons z zs =>
        by_cases h1 : y.toNat < x.toNat
        · simp [lexLe, lexLt, h1] at hab
        · by_cases h2 : z.toNat < y.toNat
          · simp [lexLe, lexLt, h2] at hbc
          · have h3 : ¬ z.toNat < x.toNat := by omega
            by_cases h4 : x.toNat < z.toNat
            · simp [lexLe, lexLt, h3, h4]
            · have h5 : ¬ x.toNat < y.toNat := by omega
              have h6 : ¬ y.toNat < z.toNat := by omega
              simp only [lexLe, lexLt, h1, h5, if_neg, if_false] at hab
              simp only [lexLe, lexLt, h2, h6, if_neg, if_false] at hbc
              have := ih ys zs hab hbc
              simpa [lexLe, lexLt, h3, h4] using this

instance : IsTotal (String × String) keyLe :=
  ⟨fun a b => lexLe_total a.1.data b.1.data⟩

instance : IsTrans (String × String) keyLe :=
  ⟨fun a b c => lexLe_trans a.1.data b.1.data c.1.data⟩

/-! Lemmas about the dict model. -/

theorem hasKey_iff (m : List (String × String)) (k : String) :
    (m.any (fun p => p.1 == k)) = true ↔ k ∈ m.map Prod.fst := by
  simp only [List.any_eq_true, List.mem_map, beq_iff_eq]

theorem dictLookup_cons (q : String × String) (rest : List (String × String)) (b : String) :
    dictLookup (q :: rest) b = if q.1 = b then some q.2 else dictLookup rest b := by
  obtain ⟨k', v⟩ := q
  rfl

theorem dictLookup_map_update_ne (k v b : String) (hb : ¬ b = k) :
    ∀ (m : List (String × String)),
      dictLookup (m.map (fun p => if p.1 = k then (k, v) else p)) b = dictLookup m b := by
  intro m
  induction m with
  | nil => rfl
  | cons p ps ih =>
    simp only [List.map_cons, dictLookup_cons]
    by_cases hpk : p.1 = k
    · rw [if_pos hpk]
      have h1 : ¬ k = b := fun h => hb h.symm
      have h2 : ¬ p.1 = b := by rw [hpk]; exact h1
      simp [h1, h2, ih]
    · rw [if_neg hpk, ih]

theorem dictLookup_map_update_self (k v : String) :
    ∀ (m : List (String × String)), (m.any (fun p => p.1 == k)) = true →
      dictLookup (m.map (fun p => if p.1 = k then (k, v) else p)) k = some v := by
  intro m
  induction m with
  | nil => simp
  | cons p ps ih =>
    intro hany
    simp only [List.map_cons, dictLookup_cons]
    by_cases hpk : p.1 = k
    · rw [if_pos hpk]
      simp
    · rw [if_neg hpk, if_neg hpk]
      have hrest : (ps.any (fun p => p.1 == k)) = true := by
        simpa [hpk] using hany
      exact ih hrest

theorem dictLookup_append_single (k v b : String) :
    ∀ (m : List (String × String)),
      dictLookup (m ++ [(k, v)]) b =
        match dictLookup m b with
        | some w => some w
        | none => if k = b then some v else none := by
  intro m
  induction m with
  | nil => rfl
  | cons p ps ih =>
    simp only [List.cons_append, dictLookup_cons, ih]
    by_cases hpb : p.1 = b <;> simp [hpb]

theorem dictLookup_hasKey (b w : String) :
    ∀ (m : List (String × String)), dictLookup m b = some w →
      (m.any (fun p => p.1 == b)) = true := by
  intro m
  induction m with
  | nil => intro h; simp [dictLookup] at h
  | cons p ps ih =>
    intro h
    rw [dictLookup_cons] at h
    by_cases hpb : p.1 = b
    · simp [hpb]
    · rw [if_neg hpb] at h
      simpa [hpb] using ih h

theorem dictLookup_dictInsert (m : List (String × String)) (k v b : String) :
    dictLookup (dictInsert m k v) b = if k = b then some v else dictLookup m b := by
  by_cases hmem : (m.any (fun p => p.1 == k)) = true
  · simp only [dictInsert, hmem, if_true]
    by_cases hb : k = b
    · subst hb
      simp [dictLookup_map_update_self k v m hmem]
    · have hbk : ¬ b = k := fun h => hb h.symm
      simp [dictLookup_map_update_ne k v b hbk m, hb]
  · simp only [dictInsert, hmem, if_false, Bool.false_eq_true]
    rw [dictLookup_append_single]
    cases hlook : dictLookup m b with
    | some w =>
      have hkb : ¬ k = b := by
        intro h
        subst h
        exact hmem (dictLookup_hasKey k w m hlook)
      simp [hkb]
    | none =>
      by_cases hkb : k = b <;> simp [hkb]

theorem keys_dictInsert (m : List (String × String)) (k v : String) :
    (dictInsert m k v).map Prod.fst =
      if (m.any (fun p => p.1 == k)) = true then m.map Prod.fst
      else m.map Prod.fst ++ [k] := by
  by_cases h : (m.any (fun p => p.1 == k)) = true
  · simp only [dictInsert, h, if_true, List.map_map]
    refine List.map_congr_left ?_
    intro p _
    by_cases hp : p.1 = k <;> simp [hp]
  · simp [dictInsert, h]

theorem length_dictInsert (m : List (String × String)) (k v : String) :
    (dictInsert m k v).length =
      if (m.any (fun p => p.1 == k)) = true then m.length else m.length + 1 := by
  by_cases h : (m.any (fun p => p.1 == k)) = true <;> simp [dictInsert, h]

/-! Counting lemmas for the pairing loop. -/

theorem pairing_partition (S : List (String × String)) :
    ∀ (l : List (String × String)),
      (l.filterMap (fun p => (dictLookup S p.1).map (fun sid => (p.2, sid)))).length
        + l.countP (fun p => (dictLookup S p.1).isNone) = l.length := by
  intro l
  induction l with
  | nil => simp
  | cons p ps ih =>
    cases h : dictLookup S p.1 with
    | none => simp [List.countP_cons, h, ← ih]; omega
    | some sid => simp [List.countP_cons, h, ← ih]; omega

theorem length_sortedItems (m : List (String × String)) :
    (sortedItems m).length = m.length :=
  (List.perm_insertionSort keyLe m).length_eq

/-! Lemmas about the FileSet fold. -/

theorem lastWins_cons (q : String × String) (L : List (String × String)) (b : String) :
    lastWins (q :: L) b =
      match lastWins L b with
      | some w => some w
      | none => if q.1 = b then some q.2 else none := by
  unfold lastWins
  rw [List.reverse_cons, List.find?_append]
  cases h : List.find? (fun p => p.1 == b) L.reverse with
  | some p => simp [Option.orElse]
  | none =>
    simp only [Option.map, Option.orElse]
    by_cases hq : q.1 = b
    · simp [List.find?, hq]
    · have hqb : (q.1 == b) = false := beq_eq_false_iff_ne.mpr hq
      simp [List.find?, hqb, hq]

theorem dictLookup_fileSetFold (t : Option (String → String)) (suffix : String) :
    ∀ (rs : List FileRecord) (m : List (String × String)) (b : String),
      dictLookup (rs.foldl (fileSetStep t suffix) m) b =
        match lastWins (rs.filterMap (baseNameOf t suffix)) b with
        | some w => some w
        | none => dictLookup m b := by
  intro rs
  induction rs with
  | nil => intro m b; simp [lastWins]
  | cons r rest ih =>
    intro m b
    rw [List.foldl_cons]
    cases hq : baseNameOf t suffix r with
    | none =>
      rw [show fileSetStep t suffix m r = m by simp [fileSetStep, hq]]
      rw [ih m b]
      simp [List.filterMap_cons, hq]
    | some bv =>
      obtain ⟨b', v⟩ := bv
      rw [show fileSetStep t suffix m r = dictInsert m b' v by simp [fileSetStep, hq]]
      rw [ih (dictInsert m b' v) b]
      simp only [List.filterMap_cons, hq, lastWins_cons]
      cases hlast : lastWins (rest.filterMap (baseNameOf t suffix)) b with
      | some w => simp
      | none =>
        simp only [dictLookup_dictInsert]
        by_cases hb : b' = b <;> simp [hb]

theorem length_fileSetFold (t : Option (String → String)) (suffix : String) :
    ∀ (rs : List FileRecord) (m : List (String × String)),
      (∀ b ∈ (rs.filterMap (baseNameOf t suffix)).map Prod.fst, ¬ b ∈ m.map Prod.fst) →
      ((rs.filterMap (baseNameOf t suffix)).map Prod.fst).Nodup →
      (rs.foldl (fileSetStep t suffix) m).length
        = m.length + (rs.filterMap (baseNameOf t suffix)).length := by
  intro rs
  induction rs with
  | nil => intro m _ _; simp
  | cons r rest ih =>
    intro m hdisj hnodup
    rw [List.foldl_cons]
    cases hq : baseNameOf t suffix r with
    | none =>
      rw [show fileSetStep t suffix m r = m by simp [fileSetStep, hq]]
      rw [ih m ?_ ?_]
      · simp [List.filterMap_cons, hq]
      · intro b hb
        exact hdisj b (by simpa [List.filterMap_cons, hq] using hb)
      · simpa [List.filterMap_cons, hq] using hnodup
    | some bv =>
      obtain ⟨b', v⟩ := bv
      rw [show fileSetStep t suffix m r = dictInsert m b' v by simp [fileSetStep, hq]]
      have hb'new : ¬ b' ∈ m.map Prod.fst := by
        refine hdisj b' ?_
        simp [List.filterMap_cons, hq]
      have hany : (m.any (fun p => p.1 == b')) = false := by
        rcases h : m.any (fun p => p.1 == b') with _ | _
        · rfl
        · exact absurd ((hasKey_iff m b').mp h) hb'new
      have hnodup' : ((rest.filterMap (baseNameOf t suffix)).map Prod.fst).Nodup := by
        have := hnodup
        simp only [List.filterMap_cons, hq, List.map_cons, List.nodup_cons] at this
        exact this.2
      have hhead : ¬ b' ∈ (rest.filterMap (baseNameOf t suffix)).map Prod.fst := by
        have := hnodup
        simp only [List.filterMap_cons, hq, List.map_cons, List.nodup_cons] at this
        exact this.1
      rw [ih (dictInsert m b' v) ?_ hnodup']
      · have hlen : (dictInsert m b' v).length = m.length + 1 := by
          rw [length_dictInsert]
          simp [hany]
        rw [hlen]
        simp only [List.filterMap_cons, hq, List.length_cons]
        omega
      · intro b hb
        rw [keys_dictInsert]
        simp only [hany, Bool.false_eq_true, if_false, List.mem_append, List.mem_singleton]
        rintro (hm | rfl)
        · exact hdisj b (by simp [List.filterMap_cons, hq, hb]) hm
        · exact hhead hb

/-! Lemmas about the matched-pair emission loop. -/

theorem pair_eq_map_snd (S : List (String × String)) :
    ∀ (l : List (String × String)),
      l.filterMap (fun p => (dictLookup S p.1).map (fun sid => (p.2, sid))) =
        (l.filterMap (fun p => (dictLookup S p.1).map (fun sid => (p.1, p.2, sid)))).map
          (fun x => x.2) := by
  intro l
  induction l with
  | nil => rfl
  | cons p ps ih =>
    cases h : dictLookup S p.1 <;> simp [List.filterMap_cons, h, ih]

theorem pairwise_matched (S : List (String × String)) :
    ∀ (l : List (String × String)), List.Pairwise keyLe l →
      List.Pairwise (fun a b : String × String × String => strLe a.1 b.1)
        (l.filterMap (fun p => (dictLookup S p.1).map (fun sid => (p.1, p.2, sid)))) := by
  intro l
  induction l with
  | nil => intro _; simp
  | cons p ps ih =>
    intro hpw
    rw [List.pairwise_cons] at hpw
    obtain ⟨hhead, htail⟩ := hpw
    cases h : dictLookup S p.1 with
    | none => simpa [List.filterMap_cons, h] using ih htail
    | some sid =>
      have hstep : List.filterMap (fun p => (dictLookup S p.1).map (fun sid => (p.1, p.2, sid)))
          (p :: ps)
          = (p.1, p.2, sid) :: List.filterMap
              (fun p => (dictLookup S p.1).map (fun sid => (p.1, p.2, sid))) ps := by
        simp [List.filterMap_cons, h]
      rw [hstep, List.pairwise_cons]
      refine ⟨?_, ih htail⟩
      intro y hy
      rw [List.mem_filterMap] at hy
      obtain ⟨q, hq, hqy⟩ := hy
      cases hlq : dictLookup S q.1 with
      | none => rw [hlq] at hqy; simp at hqy
      | some sid2 =>
        rw [hlq] at hqy
        have hqy2 : (q.1, q.2, sid2) = y := by simpa using hqy
        subst hqy2
        exact hhead q hq

/-! Lemmas about the workflow loop. -/

theorem process_workflow_action (cdp : String) :
    ∀ (samples : List String) (acc : WorkflowResult),
      samples.foldl (workflowStep cdp) acc =
        ⟨acc.processed_count + (process_workflow cdp samples).processed_count,
         acc.failed_count + (process_workflow cdp samples).failed_count,
         acc.failure_rows ++ (process_workflow cdp samples).failure_rows,
         acc.commands ++ (process_workflow cdp samples).commands⟩ := by
  intro samples
  induction samples with
  | nil =>
    intro acc
    cases acc
    simp [process_workflow]
  | cons s ss ih =>
    intro acc
    have h1 : (s :: ss).foldl (workflowStep cdp) acc
        = ss.foldl (workflowStep cdp) (workflowStep cdp acc s) := rfl
    have h2 : process_workflow cdp (s :: ss)
        = ss.foldl (workflowStep cdp) (workflowStep cdp ⟨0, 0, [], []⟩ s) := rfl
    rw [h1, ih, h2, ih]
    cases hps : process_sample cdp (firstCommaField (pyStrip s)) with
    | ok params =>
      simp only [workflowStep, hps]
      simp [WorkflowResult.mk.injEq, List.append_assoc]
      omega
    | error row =>
      simp only [workflowStep, hps]
      simp [WorkflowResult.mk.injEq, List.append_assoc]
      omega

/-! Lemmas about the leftmost-match search. -/

theorem searchFirst_some {α : Type} (f : List Char → Option α) :
    ∀ (l : List Char) (r : α), searchFirst f l = some r →
      ∃ s : List Char, List.IsSuffix s l ∧ f s = some r := by
  intro l
  induction l with
  | nil => intro r h; simp [searchFirst] at h
  | cons c rest ih =>
    intro r h
    rw [searchFirst] at h
    cases hf : f (c :: rest) with
    | some r2 =>
      rw [hf] at h
      simp only [Option.some_inj] at h
      subst h
      exact ⟨c :: rest, List.suffix_refl _, hf⟩
    | none =>
      rw [hf] at h
      obtain ⟨s, hs, hfs⟩ := ih r h
      exact ⟨s, hs.trans (List.suffix_cons c rest), hfs⟩

theorem panMatchAt_some (l m : List Char) (h : panMatchAt l = some m) :
    List.IsPrefix m l ∧ panShape m = true := by
  match l with
  | [] => simp [panMatchAt] at h
  | [p] => simp [panMatchAt] at h
  | [p, a] => simp [panMatchAt] at h
  | p :: a :: n :: rest =>
    rw [panMatchAt] at h
    by_cases hc : (p.toLower == 'p' && a.toLower == 'a' && n.toLower == 'n') = true
    · rw [if_pos hc] at h
      by_cases hds : (rest.takeWhile Char.isDigit).isEmpty = true
      · rw [if_pos hds] at h
        exact absurd h (by simp)
      · rw [if_neg hds] at h
        have hm : m = p :: a :: n :: rest.takeWhile Char.isDigit := by
          exact (Option.some_inj.mp h).symm
        subst hm
        constructor
        · obtain ⟨tail, htail⟩ := List.takeWhile_prefix (l := rest) (p := Char.isDigit)
          exact ⟨tail, by simp [htail]⟩
        · simp only [panShape]
          simp only [Bool.and_eq_true] at hc ⊢
          refine ⟨⟨⟨⟨hc.1.1, hc.1.2⟩, hc.2⟩, by simpa using hds⟩, ?_⟩
          rw [List.all_eq_true]
          intro c hc2
          exact List.mem_takeWhile_imp hc2
    · rw [if_neg hc] at h
      exact absurd h (by simp)

/-! Counting the qualifying records. -/

theorem length_filterMap_eq_countP {α β : Type} (g : α → Option β) :
    ∀ l : List α, (l.filterMap g).length = l.countP (fun a => (g a).isSome) := by
  intro l
  induction l with
  | nil => rfl
  | cons a as ih =>
    cases h : g a <;> simp [List.filterMap_cons, h, List.countP_cons, ih]

theorem baseNameOf_isSome (t : Option (String → String)) (suffix : String) (r : FileRecord) :
    (baseNameOf t suffix r).isSome
      = pyEndsWith (applyTransform t r.display_name).data suffix.data := by
  rw [baseNameOf]
  by_cases h : pyEndsWith (applyTransform t r.display_name).data suffix.data = true <;>
    simp [h]

/-! The claims. -/

/-- C1, counterexample: two primary records with the same base name collapse
to one dict entry, so `len(matched) + unpaired_primary_count` is 1 while two
primary records end with the suffix — the claimed equation fails. -/
theorem c1_counterexample :
    ¬ ((pair_dx_files [⟨"f1", "A.bam"⟩, ⟨"f2", "A.bam"⟩] ".bam" [] ".bam.bai" none).length
        + unpaired_primary_count [⟨"f1", "A.bam"⟩, ⟨"f2", "A.bam"⟩] ".bam" [] ".bam.bai" none
      = ([⟨"f1", "A.bam"⟩, ⟨"f2", "A.bam"⟩] : List FileRecord).countP
          (fun r => pyEndsWith (applyTransform none r.display_name).data ".bam".data)) := by
  decide

/-- C1, amended: provided the qualifying primary records have pairwise
distinct base names, `len(matched) + unpaired_primary_count` equals the
number of primary input records whose (possibly transformed) display name
ends with `primary_suffix`. -/
theorem c1_pairing_completeness (pd : List FileRecord) (ps : String)
    (sd : List FileRecord) (ss : String) (t : Option (String → String))
    (hnodup : ((pd.filterMap (baseNameOf t ps)).map Prod.fst).Nodup) :
    (pair_dx_files pd ps sd ss t).length + unpaired_primary_count pd ps sd ss t
      = pd.countP (fun r => pyEndsWith (applyTransform t r.display_name).data ps.data) := by
  have h1 : (pair_dx_files pd ps sd ss t).length + unpaired_primary_count pd ps sd ss t
      = (sortedItems (build_file_set t ps pd)).length := by
    simp only [pair_dx_files, unpaired_primary_count]
    exact pairing_partition (build_file_set t ss sd) (sortedItems (build_file_set t ps pd))
  rw [h1, length_sortedItems]
  have h2 : (build_file_set t ps pd).length = (pd.filterMap (baseNameOf t ps)).length := by
    have h3 := length_fileSetFold t ps pd [] (by simp) hnodup
    simpa [build_file_set] using h3
  rw [h2, length_filterMap_eq_countP]
  have h4 : (fun r => (baseNameOf t ps r).isSome)
      = (fun r => pyEndsWith (applyTransform t r.display_name).data ps.data) :=
    funext (baseNameOf_isSome t ps)
  rw [h4]

/-- C1, witness: a run with distinct base names where one primary pairs and
one is unpaired, so `1 + 1 = 2` qualifying primary records. -/
theorem c1_pairing_completeness_witness :
    ((([⟨"f1", "A.bam"⟩, ⟨"f2", "B.bam"⟩] : List FileRecord).filterMap
        (baseNameOf none ".bam")).map Prod.fst).Nodup ∧
    (pair_dx_files [⟨"f1", "A.bam"⟩, ⟨"f2", "B.bam"⟩] ".bam"
        [⟨"s1", "A.bam.bai"⟩] ".bam.bai" none).length
      + unpaired_primary_count [⟨"f1", "A.bam"⟩, ⟨"f2", "B.bam"⟩] ".bam"
          [⟨"s1", "A.bam.bai"⟩] ".bam.bai" none
      = ([⟨"f1", "A.bam"⟩, ⟨"f2", "B.bam"⟩] : List FileRecord).countP
          (fun r => pyEndsWith (applyTransform none r.display_name).data ".bam".data) :=
  ⟨by decide, c1_pairing_completeness _ _ _ _ _ (by decide)⟩

/-- C2, counterexample: two inputs whose `unpaired_primary_count` differ (1
versus 0) produce identical return values of `_pair_dx_files`, so the return
value cannot contain that count as a component — the function does not
return a PairResult with both counts. -/
theorem c2_counterexample :
    pair_dx_files [⟨"f1", "A.bam"⟩] ".bam" [] ".bam.bai" none
      = pair_dx_files [] ".bam" [] ".bam.bai" none ∧
    unpaired_primary_count [⟨"f1", "A.bam"⟩] ".bam" [] ".bam.bai" none = 1 ∧
    unpaired_primary_count [] ".bam" [] ".bam.bai" none = 0 := by
  decide

/-- C2, amended: the pairing operation computes all three PairResult
components, but its return value is only the ordered matched pair sequence;
the two counts are computed (and logged) inside the body and are not part of
the return value. -/
theorem c2_pair_returns_only_matched (pd : List FileRecord) (ps : String)
    (sd : List FileRecord) (ss : String) (t : Option (String → String)) :
    pair_dx_files pd ps sd ss t = (mk_pair_result pd ps sd ss t).matched ∧
    (mk_pair_result pd ps sd ss t).unpairedPrimaryCount
      = unpaired_primary_count pd ps sd ss t ∧
    (mk_pair_result pd ps sd ss t).orphanedSecondaryCount
      = orphaned_secondary_count pd ps sd ss t :=
  ⟨rfl, rfl, rfl⟩

/-- C3, counterexample: two records with base name `"A"` make the FileSet map
`"A"` to the id of the second record, not the first — first occurrence does
NOT win. -/
theorem c3_counterexample :
    dictLookup (build_file_set none ".bam" [⟨"f1", "A.bam"⟩, ⟨"f2", "A.bam"⟩]) "A"
      = some "f2" ∧
    dictLookup (build_file_set none ".bam" [⟨"f1", "A.bam"⟩, ⟨"f2", "A.bam"⟩]) "A"
      ≠ some "f1" := by
  decide

/-- C3, amended: the FileSet maps every base name to the id of the LAST
qualifying record that produced it — last write wins, for every input. -/
theorem c3_last_write_wins (t : Option (String → String)) (suffix : String)
    (rs : List FileRecord) (b : String) :
    dictLookup (build_file_set t suffix rs) b
      = lastWins (rs.filterMap (baseNameOf t suffix)) b := by
  rw [build_file_set, dictLookup_fileSetFold t suffix rs [] b]
  cases lastWins (rs.filterMap (baseNameOf t suffix)) b <;> rfl

/-- C4, counterexample: in Scenario B (one primary `A_R1.fastq.gz`, empty
secondary, suffixes `_R1.fastq.gz`/`_R2.fastq.gz`, transform `_R1.`/`_R2.` to
`_R#.`), `_pair_dx_files` reports `unpaired_primary_count = 0`, not 1: the
transformed name no longer ends with the primary suffix, so the entry is
structurally excluded. -/
theorem c4_counterexample :
    unpaired_primary_count [⟨"f1", "A_R1.fastq.gz"⟩] "_R1.fastq.gz" [] "_R2.fastq.gz"
        (some fastqTransform) ≠ 1 ∧
    unpaired_primary_count [⟨"f1", "A_R1.fastq.gz"⟩] "_R1.fastq.gz" [] "_R2.fastq.gz"
        (some fastqTransform) = 0 := by
  decide

/-- C4, amended: on Scenario B the generic pairer returns `matched == []` with
`unpaired_primary_count == 0` and an empty primary FileSet (the transformed
entry is structurally excluded by the suffix check); the standalone fastq
pairing script, which applies the same transform but no suffix requirement,
is the variant that counts the entry as unpaired (`unpaired_r1_count == 1`). -/
theorem c4_scenario_b :
    pair_dx_files [⟨"f1", "A_R1.fastq.gz"⟩] "_R1.fastq.gz" [] "_R2.fastq.gz"
        (some fastqTransform) = [] ∧
    unpaired_primary_count [⟨"f1", "A_R1.fastq.gz"⟩] "_R1.fastq.gz" [] "_R2.fastq.gz"
        (some fastqTransform) = 0 ∧
    build_file_set (some fastqTransform) "_R1.fastq.gz" [⟨"f1", "A_R1.fastq.gz"⟩] = [] ∧
    find_and_pair_fastq_files [⟨"f1", "A_R1.fastq.gz"⟩] [] = ([], 1, 0) := by
  decide

set_option maxRecDepth 8000 in
/-- C5, counterexample: a pan number entirely absent from the panel table
(`Pan1`) and one present without a CNV bedfile (`Pan3`) get identical
treatment — `_get_cnv_bedfile` returns `None` for both and command
generation for a pan set containing either yields the same command list; no
hard failure propagates for the absent pan. -/
theorem c5_counterexample :
    lookupPanel [("Pan2", ⟨some "b2"⟩), ("Pan3", ⟨none⟩)] "Pan1" = none ∧
    lookupPanel [("Pan2", ⟨some "b2"⟩), ("Pan3", ⟨none⟩)] "Pan3" = some ⟨none⟩ ∧
    get_cnv_bedfile "cdp" [("Pan2", ⟨some "b2"⟩), ("Pan3", ⟨none⟩)] "Pan1" = none ∧
    get_cnv_bedfile "cdp" [("Pan2", ⟨some "b2"⟩), ("Pan3", ⟨none⟩)] "Pan3" = none ∧
    generate_cnv_commands "cdp" [("Pan2", ⟨some "b2"⟩), ("Pan3", ⟨none⟩)] "ap" "rg"
        ["Pan1", "Pan2"] "rc" "pid" "pn"
      = generate_cnv_commands "cdp" [("Pan2", ⟨some "b2"⟩), ("Pan3", ⟨none⟩)] "ap" "rg"
        ["Pan3", "Pan2"] "rc" "pid" "pn" := by
  decide

/-- C5, amended: a pan_code absent from the panel lookup table is handled by
the same soft skip as one present without a CNV bedfile: `_get_cnv_bedfile`
yields `None` (only the log message differs) and command generation is
unchanged if the absent pan_code is added to the table with no bedfile —
there is no hard failure path. -/
theorem c5_soft_skip (cdp : String) (cfg : List (String × PanelInfo)) (pan : String)
    (applet rg : String) (pans : List String) (rc pid pn : String)
    (habsent : lookupPanel cfg pan = none) :
    get_cnv_bedfile cdp cfg pan = none ∧
    generate_cnv_commands cdp cfg applet rg pans rc pid pn
      = generate_cnv_commands cdp ((pan, ⟨none⟩) :: cfg) applet rg pans rc pid pn := by
  have hpoint : ∀ q : String,
      get_cnv_bedfile cdp cfg q = get_cnv_bedfile cdp ((pan, ⟨none⟩) :: cfg) q := by
    intro q
    by_cases hq : pan = q
    · subst hq
      have hlook : lookupPanel ((pan, (⟨none⟩ : PanelInfo)) :: cfg) pan
          = some ⟨none⟩ := by
        simp [lookupPanel, List.find?]
      simp only [get_cnv_bedfile, habsent, hlook]
    · have hne : (pan == q) = false := beq_eq_false_iff_ne.mpr hq
      have hlook : lookupPanel ((pan, (⟨none⟩ : PanelInfo)) :: cfg) q = lookupPanel cfg q := by
        simp [lookupPanel, List.find?, hne]
      simp only [get_cnv_bedfile, hlook]
  constructor
  · simp only [get_cnv_bedfile, habsent]
  · simp only [generate_cnv_commands]
    have hfun : (fun pan_number => (get_cnv_bedfile cdp cfg pan_number).map
          (cnvCommand applet rg rc pid pn pan_number))
        = (fun pan_number => (get_cnv_bedfile cdp ((pan, ⟨none⟩) :: cfg) pan_number).map
          (cnvCommand applet rg rc pid pn pan_number)) := by
      funext q
      rw [hpoint q]
    rw [hfun]

/-- C5, witness: the amended statement instantiated at an absent `Pan1`. -/
theorem c5_soft_skip_witness :
    lookupPanel [("Pan2", ⟨some "b2"⟩)] "Pan1" = none ∧
    (get_cnv_bedfile "cdp" [("Pan2", ⟨some "b2"⟩)] "Pan1" = none ∧
      generate_cnv_commands "cdp" [("Pan2", ⟨some "b2"⟩)] "ap" "rg"
          ["Pan1", "Pan2"] "rc" "pid" "pn"
        = generate_cnv_commands "cdp" (("Pan1", ⟨none⟩) :: [("Pan2", ⟨some "b2"⟩)]) "ap" "rg"
          ["Pan1", "Pan2"] "rc" "pid" "pn") :=
  ⟨by decide,
    c5_soft_skip "cdp" [("Pan2", ⟨some "b2"⟩)] "Pan1" "ap" "rg"
      ["Pan1", "Pan2"] "rc" "pid" "pn" (by decide)⟩

/-- C6: run-number extraction on `"NGS001_SingletonWES_Pan999"` takes the WES
fallback (`run_number == "WES"`, with no `R\d+` match present), and on
`"NGS001_R134_Pan999"` yields `"R134"`, which switches `prs_skip` to
`"false"` — PRS enabled. -/
theorem c6_rule_priority (cdp : String) :
    searchRNumber "NGS001_SingletonWES_Pan999" = none ∧
    rNumberOf (process_sample cdp "NGS001_SingletonWES_Pan999") = some "WES" ∧
    rNumberOf (process_sample cdp "NGS001_R134_Pan999") = some "R134" ∧
    prsSkipOf (process_sample cdp "NGS001_R134_Pan999") = some "false" :=
  ⟨rfl, rfl, rfl, rfl⟩

/-- C7: `"garbage_no_markers"` fails extraction (no R number, no WES token,
no Pan code, no batch token), exactly one failure row is recorded for it, and
batch processing of the remaining samples proceeds exactly as if the failing
sample were only prepended to the accounting. -/
theorem c7_independent_failure (cdp : String) (rest : List String) :
    searchRNumber "garbage_no_markers" = none ∧
    hasWes "garbage_no_markers" = false ∧
    searchPanCode "garbage_no_markers" = none ∧
    searchBatch "garbage_no_markers" = none ∧
    process_sample cdp "garbage_no_markers"
      = Except.error ("garbage_no_markers",
          "Could not extract R number from sample name: garbage_no_markers. Expected format: *R[number]* or *SingletonWES* or *WES*.") ∧
    process_workflow cdp ("garbage_no_markers" :: rest)
      = ⟨(process_workflow cdp rest).processed_count,
         1 + (process_workflow cdp rest).failed_count,
         ("garbage_no_markers",
           "Could not extract R number from sample name: garbage_no_markers. Expected format: *R[number]* or *SingletonWES* or *WES*.")
           :: (process_workflow cdp rest).failure_rows,
         (process_workflow cdp rest).commands⟩ := by
  refine ⟨rfl, rfl, rfl, rfl, rfl, ?_⟩
  have hg : workflowStep cdp ⟨0, 0, [], []⟩ "garbage_no_markers"
      = ⟨0, 1, [("garbage_no_markers",
          "Could not extract R number from sample name: garbage_no_markers. Expected format: *R[number]* or *SingletonWES* or *WES*.")], []⟩ := rfl
  have h2 : process_workflow cdp ("garbage_no_markers" :: rest)
      = rest.foldl (workflowStep cdp) ⟨0, 1, [("garbage_no_markers",
          "Could not extract R number from sample name: garbage_no_markers. Expected format: *R[number]* or *SingletonWES* or *WES*.")], []⟩ := by
    rw [process_workflow, List.foldl_cons, hg]
  rw [h2, process_workflow_action]
  simp

/-- C8: the matched sequence is emitted in ascending lexicographic base-name
order (the pairs are the second components of the base-name-annotated matched
list, whose base names are pairwise ascending), and running the pairing twice
on the same input yields identical output. -/
theorem c8_pairing_determinism (pd : List FileRecord) (ps : String)
    (sd : List FileRecord) (ss : String) (t : Option (String → String)) :
    List.Pairwise (fun a b : String × String × String => strLe a.1 b.1)
      (matched_with_bases pd ps sd ss t) ∧
    pair_dx_files pd ps sd ss t = (matched_with_bases pd ps sd ss t).map (fun x => x.2) ∧
    pair_dx_files pd ps sd ss t = pair_dx_files pd ps sd ss t := by
  refine ⟨?_, ?_, rfl⟩
  · simp only [matched_with_bases]
    exact pairwise_matched (build_file_set t ss sd) (sortedItems (build_file_set t ps pd))
      (List.sorted_insertionSort keyLe (build_file_set t ps pd))
  · simp only [pair_dx_files, matched_with_bases]
    exact pair_eq_map_snd (build_file_set t ss sd) (sortedItems (build_file_set t ps pd))

/-- C9: pan extraction takes the first `Pan\d+` match of each line
case-insensitively and preserves the original casing (`pan123` stays
`pan123`, `PAN123` stays `PAN123`, the first of two pans wins), and in
general every reported match is a verbatim substring of the line with the
`Pan`-then-digits shape. -/
theorem c9_pan_extraction :
    pansOfText "sample,pan123,x" = ["pan123"] ∧
    pansOfText "sample,PAN123,x" = ["PAN123"] ∧
    pansOfText "a,Pan111,Pan222" = ["Pan111"] ∧
    ∀ (line : String) (m : List Char), searchFirst panMatchAt line.data = some m →
      List.IsInfix m line.data ∧ panShape m = true := by
  refine ⟨by decide, by decide, by decide, ?_⟩
  intro line m h
  obtain ⟨s, hs, hfs⟩ := searchFirst_some panMatchAt line.data m h
  obtain ⟨hpre, hshape⟩ := panMatchAt_some s m hfs
  refine ⟨?_, hshape⟩
  obtain ⟨t1, ht1⟩ := hpre
  obtain ⟨t2, ht2⟩ := hs
  exact ⟨t2, t1, by rw [← ht2, ← ht1]; simp [List.append_assoc]⟩

/-- C9, witness: the general casing/shape part applied to the concrete line
`"x,pan7"`. -/
theorem c9_pan_extraction_witness :
    List.IsInfix "pan7".data "x,pan7".data ∧ panShape "pan7".data = true :=
  c9_pan_extraction.2.2.2 "x,pan7" "pan7".data (by decide)

/-- C10: pan-number extraction never raises and never returns `None`: a
failing read is caught and yields the empty set, indistinguishable from a
successfully read manifest containing no Pan numbers. -/
theorem c10_total_over_failing_reads (e : String) :
    extract_pan_numbers (Except.error e) = [] ∧
    extract_pan_numbers (Except.ok "sample_one,foo\nsample_two,bar") = [] ∧
    extract_pan_numbers (Except.error e)
      = extract_pan_numbers (Except.ok "sample_one,foo\nsample_two,bar") := by
  refine ⟨rfl, by decide, ?_⟩
  have h : extract_pan_numbers (Except.ok "sample_one,foo\nsample_two,bar")
      = ([] : List String) := by decide
  rw [h]
  rfl

end DxGen
